import Mathlib

/-!
Verification of `combining_sample_stdev.py`: base descriptive statistics
(arithmetic mean, Bessel-corrected sample variance, sample standard
deviation) and the combination algebra that pools per-group summaries
into the statistics of the union of the groups.

Embedding conventions:
* Numeric values are exact rationals (`ℚ`); sample counts are integers
  (`ℤ`), matching Python integer arithmetic for `n - 1` denominators.
* Python raises `ZeroDivisionError` when a divisor is the number zero;
  every division in the source divides by an integer count, so each
  embedded function returns `Except String ℚ` and checks its integer
  divisor for zero before dividing, exactly where the source divides.
* `math.sqrt` is an opaque library routine; it is modelled as an
  arbitrary function `s : ℚ → ℚ` together with its documented
  negative-domain failure (`ValueError` when the argument is negative).
  No claim depends on the values of the square root itself.
-/

instance {ε α : Type} [DecidableEq ε] [DecidableEq α] :
    DecidableEq (Except ε α) := fun a b =>
  match a, b with
  | Except.error e, Except.error f =>
    if h : e = f then isTrue (by rw [h])
    else isFalse fun hh => h (Except.error.inj hh)
  | Except.error _, Except.ok _ => isFalse fun hh => Except.noConfusion hh
  | Except.ok _, Except.error _ => isFalse fun hh => Except.noConfusion hh
  | Except.ok a, Except.ok b =>
    if h : a = b then isTrue (by rw [h])
    else isFalse fun hh => h (Except.ok.inj hh)

/-- The `sampled_value` record of the source: a group's mean
(`quantity`), sample variance (`variance`), number of observations
(`samples`) and an opaque optional unit tag (`unit`). -/
structure sampled_value where
  quantity : ℚ
  variance : ℚ
  samples  : ℤ
  unit     : Option String
deriving DecidableEq, Repr

/-- `arithmetic_mean(X) = sum(X) / len(X)`; Python raises
`ZeroDivisionError` when `len(X) = 0`. -/
def arithmetic_mean (X : List ℚ) : Except String ℚ :=
  if X.length = 0 then Except.error "ZeroDivisionError"
  else Except.ok (X.sum / (X.length : ℚ))

/-- `sample_variance(X, u = None)`: if `u` is `None` it is computed by
`arithmetic_mean(X)`; returns `sum((X_i - u)^2) / (len(X) - 1)`, raising
`ZeroDivisionError` when the integer divisor `len(X) - 1` is zero. -/
def sample_variance (X : List ℚ) (u₀ : Option ℚ) : Except String ℚ :=
  (match u₀ with
   | some u => Except.ok u
   | none   => arithmetic_mean X).bind fun u =>
    if (X.length : ℤ) - 1 = 0 then Except.error "ZeroDivisionError"
    else Except.ok ((X.map fun x => (x - u) ^ 2).sum / ((X.length : ℚ) - 1))

/-- `sample_standard_deviation(X, u = None, v = None)`: computes any
omitted argument (`u` via `arithmetic_mean`, `v` via `sample_variance`)
and returns `sqrt(v)`; `math.sqrt` raises `ValueError` on a negative
argument.  The square root itself is the abstract parameter `s`. -/
def sample_standard_deviation (s : ℚ → ℚ) (X : List ℚ)
    (u₀ v₀ : Option ℚ) : Except String ℚ :=
  (match u₀ with
   | some u => Except.ok u
   | none   => arithmetic_mean X).bind fun u =>
  (match v₀ with
   | some v => Except.ok v
   | none   => sample_variance X (some u)).bind fun v =>
    if v < 0 then Except.error "ValueError: math domain error"
    else Except.ok (s v)

/-- `combined_sample_size(As) = Σ n_i`, the sum of the `samples` fields. -/
def combined_sample_size (As : List sampled_value) : ℤ :=
  (As.map fun a => a.samples).sum

/-- `combined_arithmetic_mean(As, n = None)`: if `n` is `None` it is
computed by `combined_sample_size`; returns `Σ (n_i · u_i) / n`, raising
`ZeroDivisionError` when the divisor `n` is zero. -/
def combined_arithmetic_mean (As : List sampled_value)
    (n₀ : Option ℤ) : Except String ℚ :=
  let n := n₀.getD (combined_sample_size As)
  if n = 0 then Except.error "ZeroDivisionError"
  else Except.ok
    ((As.map fun a => (a.samples : ℚ) * a.quantity).sum / (n : ℚ))

/-- `combined_sample_variance(As, n = None, u = None)`: omitted `n` is
computed by `combined_sample_size`, omitted `u` by
`combined_arithmetic_mean(As, n)`; returns
`Σ (n_i·(u_i - u)^2 + v_i·(n_i - 1)) / (n - 1)`, raising
`ZeroDivisionError` when the integer divisor `n - 1` is zero. -/
def combined_sample_variance (As : List sampled_value)
    (n₀ : Option ℤ) (u₀ : Option ℚ) : Except String ℚ :=
  let n := n₀.getD (combined_sample_size As)
  (match u₀ with
   | some u => Except.ok u
   | none   => combined_arithmetic_mean As (some n)).bind fun u =>
    if n - 1 = 0 then Except.error "ZeroDivisionError"
    else Except.ok
      ((As.map fun a : sampled_value =>
          (a.samples : ℚ) * (a.quantity - u) ^ 2
            + a.variance * ((a.samples : ℚ) - 1)).sum / ((n : ℚ) - 1))

/-- `combined_sample_standard_deviation(As, n = None, u = None, v = None)`:
computes omitted arguments in the chain size → mean → variance and
returns `sqrt(v)`; `math.sqrt` raises `ValueError` on a negative
argument.  The square root itself is the abstract parameter `s`. -/
def combined_sample_standard_deviation (s : ℚ → ℚ)
    (As : List sampled_value) (n₀ : Option ℤ) (u₀ : Option ℚ)
    (v₀ : Option ℚ) : Except String ℚ :=
  let n := n₀.getD (combined_sample_size As)
  (match u₀ with
   | some u => Except.ok u
   | none   => combined_arithmetic_mean As (some n)).bind fun u =>
  (match v₀ with
   | some v => Except.ok v
   | none   => combined_sample_variance As (some n) (some u)).bind fun v =>
    if v < 0 then Except.error "ValueError: math domain error"
    else Except.ok (s v)

/-- The summary a caller builds from a raw group `L`:
`(arithmetic_mean(L), sample_variance(L), len(L))`, a length-1 group
carrying variance `0` by convention, and no unit tag. -/
def summarize (L : List ℚ) : sampled_value :=
  { quantity := L.sum / (L.length : ℚ)
    variance :=
      if L.length ≤ 1 then 0
      else (L.map fun x => (x - L.sum / (L.length : ℚ)) ^ 2).sum
             / ((L.length : ℚ) - 1)
    samples  := (L.length : ℤ)
    unit     := none }

/-! ## Evaluation lemmas for the base layer -/

lemma mean_ok (X : List ℚ) (h : X ≠ []) :
    arithmetic_mean X = Except.ok (X.sum / (X.length : ℚ)) := by
  rw [arithmetic_mean, if_neg]
  simpa using h

lemma variance_some_ok (X : List ℚ) (u : ℚ) (h : X.length ≠ 1) :
    sample_variance X (some u)
      = Except.ok ((X.map fun x => (x - u) ^ 2).sum / ((X.length : ℚ) - 1)) := by
  rw [sample_variance]
  simp only [Except.bind]
  rw [if_neg]
  omega

lemma variance_none_ok (X : List ℚ) (h : 2 ≤ X.length) :
    sample_variance X none
      = Except.ok ((X.map fun x => (x - X.sum / (X.length : ℚ)) ^ 2).sum
          / ((X.length : ℚ) - 1)) := by
  have hne : X ≠ [] := by
    intro hX
    rw [hX] at h
    simp at h
  rw [sample_variance, mean_ok X hne]
  simp only [Except.bind]
  rw [if_neg]
  omega

/-- Claim C6: for every non-empty sequence `X`, `arithmetic_mean(X)`
returns `sum(X) / len(X)` (so for a sequence of one repeated value `v`
the mean is exactly `v`), and for the empty sequence it fails with a
division-by-zero-class error. -/
theorem c6_arithmetic_mean_spec (X : List ℚ) (v : ℚ) (k : ℕ) :
    (X ≠ [] → arithmetic_mean X = Except.ok (X.sum / (X.length : ℚ)))
    ∧ (1 ≤ k → arithmetic_mean (List.replicate k v) = Except.ok v)
    ∧ arithmetic_mean ([] : List ℚ) = Except.error "ZeroDivisionError" := by
  refine ⟨fun h => mean_ok X h, fun hk => ?_, rfl⟩
  have hk0 : (k : ℚ) ≠ 0 := Nat.cast_ne_zero.mpr (by omega)
  have hne : List.replicate k v ≠ [] := by
    intro hnil
    have hlen := congrArg List.length hnil
    simp at hlen
    omega
  rw [mean_ok _ hne, List.sum_replicate, List.length_replicate, nsmul_eq_mul,
    mul_div_cancel_left₀ _ hk0]

/-- Witness for C6 at `X = [1, 2, 3]`, `v = 5`, `k = 2`. -/
theorem c6_arithmetic_mean_spec_witness :
    arithmetic_mean [1, 2, 3] = Except.ok 2
    ∧ arithmetic_mean (List.replicate 2 (5 : ℚ)) = Except.ok 5
    ∧ arithmetic_mean ([] : List ℚ) = Except.error "ZeroDivisionError" := by
  obtain ⟨h1, h2, h3⟩ := c6_arithmetic_mean_spec [1, 2, 3] 5 2
  refine ⟨?_, h2 (by decide), h3⟩
  rw [h1 (by decide)]
  norm_num

/-- Claim C7: for `len(X) ≥ 2`, `sample_variance(X, mean)` returns
`Σ(x_i - m)^2 / (n - 1)` where `m` is the supplied mean argument when
present (trusted as-is) and `arithmetic_mean(X)` otherwise; when
`n = 1` it fails with a division-by-zero-class error. -/
theorem c7_sample_variance_spec (X : List ℚ) (m : ℚ) :
    (2 ≤ X.length →
      sample_variance X (some m)
        = Except.ok ((X.map fun x => (x - m) ^ 2).sum / ((X.length : ℚ) - 1))
      ∧ sample_variance X none
        = Except.ok ((X.map fun x =>
            (x - X.sum / (X.length : ℚ)) ^ 2).sum / ((X.length : ℚ) - 1)))
    ∧ (X.length = 1 →
      sample_variance X (some m) = Except.error "ZeroDivisionError"
      ∧ sample_variance X none = Except.error "ZeroDivisionError") := by
  constructor
  · intro h
    exact ⟨variance_some_ok X m (by omega), variance_none_ok X h⟩
  · intro h
    have hne : X ≠ [] := by
      intro hX
      rw [hX] at h
      simp at h
    constructor
    · rw [sample_variance]
      simp only [Except.bind]
      rw [if_pos (show ((X.length : ℤ) - 1 = 0) by omega)]
    · rw [sample_variance, mean_ok X hne]
      simp only [Except.bind]
      rw [if_pos (show ((X.length : ℤ) - 1 = 0) by omega)]

/-- Witness for C7 at `X = [1, 2]` with `m = 0`, and at `X = [5]`. -/
theorem c7_sample_variance_spec_witness :
    sample_variance [1, 2] (some 0) = Except.ok 5
    ∧ sample_variance [(5 : ℚ)] none = Except.error "ZeroDivisionError" := by
  obtain ⟨h1, -⟩ := (c7_sample_variance_spec [1, 2] 0).1 (by decide)
  refine ⟨?_, ((c7_sample_variance_spec [5] 0).2 (by decide)).2⟩
  rw [h1]
  norm_num

/-- Claim C8: for every sequence `X` with `len(X) ≥ 2`,
`sample_variance(X)` with the mean argument omitted succeeds and the
returned value is nonnegative. -/
theorem c8_sample_variance_nonneg (X : List ℚ) (h : 2 ≤ X.length) :
    ∃ w, sample_variance X none = Except.ok w ∧ 0 ≤ w := by
  refine ⟨_, variance_none_ok X h, ?_⟩
  apply div_nonneg
  · apply List.sum_nonneg
    intro x hx
    simp only [List.mem_map] at hx
    obtain ⟨y, -, rfl⟩ := hx
    positivity
  · have h2 : (2 : ℚ) ≤ (X.length : ℚ) := by exact_mod_cast h
    linarith

/-- Witness for C8 at `X = [1, 3]`. -/
theorem c8_sample_variance_nonneg_witness :
    ∃ w, sample_variance [1, 3] none = Except.ok w ∧ 0 ≤ w :=
  c8_sample_variance_nonneg [1, 3] (by decide)

/-! ## Evaluation lemmas for the combination layer -/

lemma cmean_some_ok (As : List sampled_value) (n : ℤ) (h : n ≠ 0) :
    combined_arithmetic_mean As (some n)
      = Except.ok
          ((As.map fun a => (a.samples : ℚ) * a.quantity).sum / (n : ℚ)) := by
  simp only [combined_arithmetic_mean, Option.getD_some]
  rw [if_neg h]

lemma cmean_none_ok (As : List sampled_value)
    (h : combined_sample_size As ≠ 0) :
    combined_arithmetic_mean As none
      = Except.ok ((As.map fun a => (a.samples : ℚ) * a.quantity).sum
          / (combined_sample_size As : ℚ)) := by
  simp only [combined_arithmetic_mean, Option.getD_none]
  rw [if_neg h]

lemma cvar_uu_ok (As : List sampled_value) (n : ℤ) (u : ℚ) (h : n ≠ 1) :
    combined_sample_variance As (some n) (some u)
      = Except.ok ((As.map fun a =>
          (a.samples : ℚ) * (a.quantity - u) ^ 2
            + a.variance * ((a.samples : ℚ) - 1)).sum / ((n : ℚ) - 1)) := by
  simp only [combined_sample_variance, Option.getD_some, Except.bind]
  rw [if_neg (show ¬(n - 1 = 0) by omega)]

lemma cvar_n_one_error (As : List sampled_value) (n₀ : Option ℤ)
    (u₀ : Option ℚ) (h : n₀.getD (combined_sample_size As) = 1) :
    combined_sample_variance As n₀ u₀ = Except.error "ZeroDivisionError" := by
  simp only [combined_sample_variance, h]
  cases u₀ with
  | some u => simp [Except.bind]
  | none =>
    rw [cmean_some_ok As 1 one_ne_zero]
    simp [Except.bind]

lemma cvar_n_zero_none_error (As : List sampled_value) (n₀ : Option ℤ)
    (h : n₀.getD (combined_sample_size As) = 0) :
    combined_sample_variance As n₀ none = Except.error "ZeroDivisionError" := by
  simp only [combined_sample_variance, h, combined_arithmetic_mean,
    Option.getD_some]
  simp [Except.bind]

/-- Claim C2: for a non-empty list of summaries with combined sample
count `n = Σ n_i ≥ 2`, `combined_sample_variance(As)` returns
`[Σ( n_i·(u_i - u)^2 + v_i·(n_i - 1) )] / (n - 1)` with `u` the
sample-count-weighted combined mean; supplied `n` and `u` arguments are
used in place of the internally computed values. -/
theorem c2_combined_sample_variance_formula (As : List sampled_value)
    (n : ℤ) (u : ℚ) :
    (As ≠ [] → 2 ≤ combined_sample_size As →
      combined_sample_variance As none none
        = Except.ok ((As.map fun a =>
            (a.samples : ℚ) * (a.quantity
              - (As.map fun b => (b.samples : ℚ) * b.quantity).sum
                  / (combined_sample_size As : ℚ)) ^ 2
              + a.variance * ((a.samples : ℚ) - 1)).sum
            / ((combined_sample_size As : ℚ) - 1)))
    ∧ (n ≠ 1 →
      combined_sample_variance As (some n) (some u)
        = Except.ok ((As.map fun a =>
            (a.samples : ℚ) * (a.quantity - u) ^ 2
              + a.variance * ((a.samples : ℚ) - 1)).sum
            / ((n : ℚ) - 1))) := by
  constructor
  · intro hne hsz
    have h0 : combined_sample_size As ≠ 0 := by omega
    simp only [combined_sample_variance, Option.getD_none]
    rw [cmean_some_ok As _ h0]
    simp only [Except.bind]
    rw [if_neg (show ¬(combined_sample_size As - 1 = 0) by omega)]
  · intro h1
    exact cvar_uu_ok As n u h1

/-- Witness for C2 on two single-observation summaries with means `1`
and `3`, and on the supplied-argument path with `n = 3`, `u = 0`. -/
theorem c2_combined_sample_variance_formula_witness :
    combined_sample_variance [⟨1, 0, 1, none⟩, ⟨3, 0, 1, none⟩] none none
      = Except.ok 2
    ∧ combined_sample_variance [⟨1, 0, 1, none⟩, ⟨3, 0, 1, none⟩]
        (some 3) (some 0) = Except.ok 5 := by
  obtain ⟨h1, h2⟩ :=
    c2_combined_sample_variance_formula [⟨1, 0, 1, none⟩, ⟨3, 0, 1, none⟩] 3 0
  constructor
  · rw [h1 (by decide) (by decide)]
    norm_num [combined_sample_size]
  · rw [h2 (by decide)]
    norm_num

/-- Counterexample to C3 as stated: on the empty summary list the
combined sample count is `0 ≤ 1`, yet with a precomputed mean supplied
`combined_sample_variance` silently returns `0` instead of failing with
a division-by-zero error (the divisor is `0 - 1 = -1`, not zero). -/
theorem c3_low_n_counterexample :
    combined_sample_size ([] : List sampled_value) ≤ 1
    ∧ combined_sample_variance [] none (some 0) = Except.ok 0 := by
  constructor
  · decide
  · norm_num [combined_sample_variance, combined_sample_size, Except.bind]

/-- Claim C3 (amended): `combined_sample_variance` fails with a
division-by-zero error whenever the effective combined sample count is
`1` (whatever the optional arguments) and whenever it is `0` with the
mean argument omitted; but when it is `0` and a mean is supplied the
divisor is `-1`, and on the empty summary list it silently returns `0`. -/
theorem c3_combined_sample_variance_low_n (As : List sampled_value)
    (n₀ : Option ℤ) (u₀ : Option ℚ) (u : ℚ) :
    (n₀.getD (combined_sample_size As) = 1 →
      combined_sample_variance As n₀ u₀ = Except.error "ZeroDivisionError")
    ∧ (n₀.getD (combined_sample_size As) = 0 →
      combined_sample_variance As n₀ none = Except.error "ZeroDivisionError")
    ∧ combined_sample_variance [] none (some u) = Except.ok 0 := by
  refine ⟨cvar_n_one_error As n₀ u₀, cvar_n_zero_none_error As n₀, ?_⟩
  norm_num [combined_sample_variance, combined_sample_size, Except.bind]

/-- Witness for the amended C3: a single summary of one observation
fails, the empty list with no mean fails, the empty list with a
supplied mean returns `0`. -/
theorem c3_combined_sample_variance_low_n_witness :
    combined_sample_variance [⟨5, 0, 1, none⟩] none none
      = Except.error "ZeroDivisionError"
    ∧ combined_sample_variance [] none none
      = Except.error "ZeroDivisionError"
    ∧ combined_sample_variance [] none (some 7) = Except.ok 0 :=
  ⟨(c3_combined_sample_variance_low_n [⟨5, 0, 1, none⟩] none none 7).1
      (by decide),
   (c3_combined_sample_variance_low_n [] none none 7).2.1 (by decide),
   (c3_combined_sample_variance_low_n [] none none 7).2.2⟩

/-- Claim C5: for a summary with mean `u`, variance `v` and `n ≥ 2`
samples, the combination functions applied to the one-element list
containing just that summary reproduce the summary's own statistics. -/
theorem c5_singleton_reproduces (u v : ℚ) (n : ℤ) (t : Option String)
    (h : 2 ≤ n) :
    combined_arithmetic_mean [⟨u, v, n, t⟩] none = Except.ok u
    ∧ combined_sample_variance [⟨u, v, n, t⟩] none none = Except.ok v := by
  have hsz : combined_sample_size [⟨u, v, n, t⟩] = n := by
    simp [combined_sample_size]
  have h0 : n ≠ 0 := by omega
  have hn0 : (n : ℚ) ≠ 0 := Int.cast_ne_zero.mpr h0
  have hn1 : (n : ℚ) - 1 ≠ 0 := by
    have h2 : (2 : ℚ) ≤ (n : ℚ) := by exact_mod_cast h
    linarith
  have hnum : (([⟨u, v, n, t⟩] : List sampled_value).map
      fun a => (a.samples : ℚ) * a.quantity).sum = (n : ℚ) * u := by
    simp
  constructor
  · rw [cmean_none_ok _ (by rw [hsz]; exact h0), hsz, hnum,
      mul_div_cancel_left₀ u hn0]
  · simp only [combined_sample_variance, Option.getD_none, hsz]
    rw [cmean_some_ok _ _ h0, hnum, mul_div_cancel_left₀ u hn0]
    simp only [Except.bind]
    rw [if_neg (show ¬(n - 1 = 0) by omega)]
    simp only [List.map_cons, List.map_nil, List.sum_cons, List.sum_nil,
      add_zero, sub_self]
    rw [show ((n : ℚ) * 0 ^ 2 + v * ((n : ℚ) - 1)) = v * ((n : ℚ) - 1) by ring,
      mul_div_cancel_right₀ v hn1]

/-- Witness for C5 at the summary `(3, 1, 2)`. -/
theorem c5_singleton_reproduces_witness :
    combined_arithmetic_mean [⟨3, 1, 2, none⟩] none = Except.ok 3
    ∧ combined_sample_variance [⟨3, 1, 2, none⟩] none none = Except.ok 1 :=
  c5_singleton_reproduces 3 1 2 none (by decide)

/-- Claim C4: permuting the input list of summaries changes the result
of none of the four combination functions, for all optional arguments
and any square-root routine. -/
theorem c4_perm_invariant (As Bs : List sampled_value) (h : As.Perm Bs)
    (s : ℚ → ℚ) (n₀ : Option ℤ) (u₀ v₀ : Option ℚ) :
    combined_sample_size As = combined_sample_size Bs
    ∧ combined_arithmetic_mean As n₀ = combined_arithmetic_mean Bs n₀
    ∧ combined_sample_variance As n₀ u₀ = combined_sample_variance Bs n₀ u₀
    ∧ combined_sample_standard_deviation s As n₀ u₀ v₀
        = combined_sample_standard_deviation s Bs n₀ u₀ v₀ := by
  have hsum : ∀ f : sampled_value → ℚ, (As.map f).sum = (Bs.map f).sum :=
    fun f => (h.map f).sum_eq
  have hsize : combined_sample_size As = combined_sample_size Bs := by
    simp only [combined_sample_size]
    exact (h.map fun a => a.samples).sum_eq
  refine ⟨hsize, ?_, ?_, ?_⟩ <;>
    simp only [combined_arithmetic_mean, combined_sample_variance,
      combined_sample_standard_deviation, hsize, hsum]

/-- Witness for C4 on a two-element list and its transposition. -/
theorem c4_perm_invariant_witness :
    combined_sample_size [⟨1, 0, 2, none⟩, ⟨4, 2, 3, none⟩]
      = combined_sample_size [⟨4, 2, 3, none⟩, ⟨1, 0, 2, none⟩]
    ∧ combined_arithmetic_mean [⟨1, 0, 2, none⟩, ⟨4, 2, 3, none⟩] none
      = combined_arithmetic_mean [⟨4, 2, 3, none⟩, ⟨1, 0, 2, none⟩] none
    ∧ combined_sample_variance [⟨1, 0, 2, none⟩, ⟨4, 2, 3, none⟩] none none
      = combined_sample_variance [⟨4, 2, 3, none⟩, ⟨1, 0, 2, none⟩] none none
    ∧ combined_sample_standard_deviation id
        [⟨1, 0, 2, none⟩, ⟨4, 2, 3, none⟩] none none none
      = combined_sample_standard_deviation id
        [⟨4, 2, 3, none⟩, ⟨1, 0, 2, none⟩] none none none :=
  c4_perm_invariant [⟨1, 0, 2, none⟩, ⟨4, 2, 3, none⟩]
    [⟨4, 2, 3, none⟩, ⟨1, 0, 2, none⟩]
    (List.Perm.swap (⟨4, 2, 3, none⟩ : sampled_value)
      (⟨1, 0, 2, none⟩ : sampled_value) []) id none none none

/-- The unit-blind content of a summary: every field except `unit`. -/
def strip_tag (a : sampled_value) : ℚ × ℚ × ℤ :=
  (a.quantity, a.variance, a.samples)

lemma strip_sum (As Bs : List sampled_value)
    (h : As.map strip_tag = Bs.map strip_tag) (f : ℚ → ℚ → ℤ → ℚ) :
    (As.map fun a => f a.quantity a.variance a.samples).sum
      = (Bs.map fun a => f a.quantity a.variance a.samples).sum := by
  induction As generalizing Bs with
  | nil =>
    cases Bs with
    | nil => rfl
    | cons b Bs => simp [strip_tag] at h
  | cons a As ih =>
    cases Bs with
    | nil => simp [strip_tag] at h
    | cons b Bs =>
      simp only [List.map_cons, List.cons.injEq] at h
      obtain ⟨hab, hrest⟩ := h
      have hq : a.quantity = b.quantity := by
        have hp := congrArg Prod.fst hab
        simpa [strip_tag] using hp
      have hv : a.variance = b.variance := by
        have hp := congrArg (fun p : ℚ × ℚ × ℤ => p.2.1) hab
        simpa [strip_tag] using hp
      have hs : a.samples = b.samples := by
        have hp := congrArg (fun p : ℚ × ℚ × ℤ => p.2.2) hab
        simpa [strip_tag] using hp
      simp only [List.map_cons, List.sum_cons, hq, hv, hs, ih Bs hrest]

lemma strip_size (As Bs : List sampled_value)
    (h : As.map strip_tag = Bs.map strip_tag) :
    combined_sample_size As = combined_sample_size Bs := by
  induction As generalizing Bs with
  | nil =>
    cases Bs with
    | nil => rfl
    | cons b Bs => simp [strip_tag] at h
  | cons a As ih =>
    cases Bs with
    | nil => simp [strip_tag] at h
    | cons b Bs =>
      simp only [List.map_cons, List.cons.injEq] at h
      obtain ⟨hab, hrest⟩ := h
      have hs : a.samples = b.samples := by
        have hp := congrArg (fun p : ℚ × ℚ × ℤ => p.2.2) hab
        simpa [strip_tag] using hp
      simp only [combined_sample_size, List.map_cons, List.sum_cons, hs]
      have := ih Bs hrest
      simp only [combined_sample_size] at this
      rw [this]

/-- Claim C9: the combination functions never inspect the `unit`
field — two summary lists agreeing on every `quantity`, `variance` and
`samples` field give identical results from all four functions. -/
theorem c9_unit_independence (As Bs : List sampled_value)
    (h : As.map strip_tag = Bs.map strip_tag)
    (s : ℚ → ℚ) (n₀ : Option ℤ) (u₀ v₀ : Option ℚ) :
    combined_sample_size As = combined_sample_size Bs
    ∧ combined_arithmetic_mean As n₀ = combined_arithmetic_mean Bs n₀
    ∧ combined_sample_variance As n₀ u₀ = combined_sample_variance Bs n₀ u₀
    ∧ combined_sample_standard_deviation s As n₀ u₀ v₀
        = combined_sample_standard_deviation s Bs n₀ u₀ v₀ := by
  have h1 : (As.map fun a => (a.samples : ℚ) * a.quantity).sum
      = (Bs.map fun a => (a.samples : ℚ) * a.quantity).sum :=
    strip_sum As Bs h fun q v n => (n : ℚ) * q
  have h2 : ∀ u : ℚ,
      (As.map fun a => (a.samples : ℚ) * (a.quantity - u) ^ 2
        + a.variance * ((a.samples : ℚ) - 1)).sum
      = (Bs.map fun a => (a.samples : ℚ) * (a.quantity - u) ^ 2
        + a.variance * ((a.samples : ℚ) - 1)).sum :=
    fun u => strip_sum As Bs h
      fun q v n => (n : ℚ) * (q - u) ^ 2 + v * ((n : ℚ) - 1)
  have hsz := strip_size As Bs h
  refine ⟨hsz, ?_, ?_, ?_⟩ <;>
    simp only [combined_arithmetic_mean, combined_sample_variance,
      combined_sample_standard_deviation, hsz, h1, h2]

/-- Witness for C9 on one-element lists differing only in the unit. -/
theorem c9_unit_independence_witness :
    combined_sample_size [⟨1, 2, 3, none⟩]
      = combined_sample_size [⟨1, 2, 3, some "ms"⟩]
    ∧ combined_arithmetic_mean [⟨1, 2, 3, none⟩] none
      = combined_arithmetic_mean [⟨1, 2, 3, some "ms"⟩] none
    ∧ combined_sample_variance [⟨1, 2, 3, none⟩] none none
      = combined_sample_variance [⟨1, 2, 3, some "ms"⟩] none none
    ∧ combined_sample_standard_deviation id [⟨1, 2, 3, none⟩] none none none
      = combined_sample_standard_deviation id [⟨1, 2, 3, some "ms"⟩]
          none none none :=
  c9_unit_independence [⟨1, 2, 3, none⟩] [⟨1, 2, 3, some "ms"⟩] rfl
    id none none none

lemma cvar_none_none_ok (As : List sampled_value)
    (h0 : combined_sample_size As ≠ 0) (h1 : combined_sample_size As ≠ 1) :
    combined_sample_variance As none none
      = Except.ok ((As.map fun a =>
          (a.samples : ℚ) * (a.quantity
            - (As.map fun b => (b.samples : ℚ) * b.quantity).sum
                / (combined_sample_size As : ℚ)) ^ 2
          + a.variance * ((a.samples : ℚ) - 1)).sum
        / ((combined_sample_size As : ℚ) - 1)) := by
  simp only [combined_sample_variance, Option.getD_none]
  rw [cmean_some_ok As _ h0]
  simp only [Except.bind]
  rw [if_neg (show ¬(combined_sample_size As - 1 = 0) by omega)]

/-- Claim C10: under the data-model invariants (each `variance ≥ 0`,
each `samples ≥ 1`) with combined sample count at least `2`,
`combined_sample_variance` succeeds with a nonnegative value, so the
square root in `combined_sample_standard_deviation` is applied to a
nonnegative argument and never hits the negative-domain error. -/
theorem c10_combined_variance_nonneg (As : List sampled_value) (s : ℚ → ℚ)
    (hne : As ≠ [])
    (hinv : ∀ a ∈ As, 0 ≤ a.variance ∧ 1 ≤ a.samples)
    (hn : 2 ≤ combined_sample_size As) :
    ∃ w, combined_sample_variance As none none = Except.ok w ∧ 0 ≤ w
      ∧ combined_sample_standard_deviation s As none none none
          = Except.ok (s w) := by
  have h0 : combined_sample_size As ≠ 0 := by omega
  have h1 : combined_sample_size As ≠ 1 := by omega
  have hd : (0 : ℚ) < (combined_sample_size As : ℚ) - 1 := by
    have h2 : (2 : ℚ) ≤ (combined_sample_size As : ℚ) := by exact_mod_cast hn
    linarith
  refine ⟨_, cvar_none_none_ok As h0 h1, ?_, ?_⟩
  · apply div_nonneg _ (le_of_lt hd)
    apply List.sum_nonneg
    intro x hx
    simp only [List.mem_map] at hx
    obtain ⟨a, ha, rfl⟩ := hx
    obtain ⟨hav, han⟩ := hinv a ha
    have hc : (1 : ℚ) ≤ (a.samples : ℚ) := by exact_mod_cast han
    have t1 : (0 : ℚ) ≤ (a.samples : ℚ)
        * (a.quantity - (As.map fun b => (b.samples : ℚ) * b.quantity).sum
            / (combined_sample_size As : ℚ)) ^ 2 :=
      mul_nonneg (by linarith) (sq_nonneg _)
    have t2 : (0 : ℚ) ≤ a.variance * ((a.samples : ℚ) - 1) :=
      mul_nonneg hav (by linarith)
    linarith
  · have hwnn : (0 : ℚ) ≤ (As.map fun a =>
        (a.samples : ℚ) * (a.quantity
          - (As.map fun b => (b.samples : ℚ) * b.quantity).sum
              / (combined_sample_size As : ℚ)) ^ 2
        + a.variance * ((a.samples : ℚ) - 1)).sum
        / ((combined_sample_size As : ℚ) - 1) := by
      apply div_nonneg _ (le_of_lt hd)
      apply List.sum_nonneg
      intro x hx
      simp only [List.mem_map] at hx
      obtain ⟨a, ha, rfl⟩ := hx
      obtain ⟨hav, han⟩ := hinv a ha
      have hc : (1 : ℚ) ≤ (a.samples : ℚ) := by exact_mod_cast han
      have t1 : (0 : ℚ) ≤ (a.samples : ℚ)
          * (a.quantity - (As.map fun b => (b.samples : ℚ) * b.quantity).sum
              / (combined_sample_size As : ℚ)) ^ 2 :=
        mul_nonneg (by linarith) (sq_nonneg _)
      have t2 : (0 : ℚ) ≤ a.variance * ((a.samples : ℚ) - 1) :=
        mul_nonneg hav (by linarith)
      linarith
    simp only [combined_sample_standard_deviation, Option.getD_none]
    rw [cmean_some_ok As _ h0]
    simp only [Except.bind]
    rw [cvar_uu_ok As _ _ h1]
    simp only [Except.bind]
    rw [if_neg (not_lt.mpr hwnn)]

/-- Witness for C10 on two single-observation summaries. -/
theorem c10_combined_variance_nonneg_witness :
    ∃ w, combined_sample_variance [⟨1, 0, 1, none⟩, ⟨3, 0, 1, none⟩]
        none none = Except.ok w ∧ 0 ≤ w
      ∧ combined_sample_standard_deviation id
          [⟨1, 0, 1, none⟩, ⟨3, 0, 1, none⟩] none none none
          = Except.ok (id w) :=
  c10_combined_variance_nonneg [⟨1, 0, 1, none⟩, ⟨3, 0, 1, none⟩] id
    (by decide) (by decide) (by decide)

/-! ## The partition equivalence law -/

lemma sq_dev_shift (L : List ℚ) (m u : ℚ) :
    (L.map fun x => (x - u) ^ 2).sum
      = (L.map fun x => (x - m) ^ 2).sum
        + 2 * (m - u) * (L.sum - (L.length : ℚ) * m)
        + (L.length : ℚ) * (m - u) ^ 2 := by
  induction L with
  | nil => simp
  | cons x L ih =>
    simp only [List.map_cons, List.sum_cons, List.length_cons, ih]
    push_cast
    ring

lemma sq_dev_mean (L : List ℚ) (h : L ≠ []) (u : ℚ) :
    (L.map fun x => (x - u) ^ 2).sum
      = (L.map fun x => (x - L.sum / (L.length : ℚ)) ^ 2).sum
        + (L.length : ℚ) * (L.sum / (L.length : ℚ) - u) ^ 2 := by
  have hlen : (L.length : ℚ) ≠ 0 := by
    have := List.length_pos.mpr h
    exact_mod_cast Nat.pos_iff_ne_zero.mp this
  rw [sq_dev_shift L (L.sum / (L.length : ℚ)) u]
  have hc : L.sum - (L.length : ℚ) * (L.sum / (L.length : ℚ)) = 0 := by
    field_simp
  rw [hc]
  ring

lemma summarize_var_mul (L : List ℚ) (h : L ≠ []) :
    (summarize L).variance * ((L.length : ℚ) - 1)
      = (L.map fun x => (x - L.sum / (L.length : ℚ)) ^ 2).sum := by
  by_cases hlen : L.length ≤ 1
  · have h1 : L.length = 1 := by
      have := List.length_pos.mpr h
      omega
    obtain ⟨x, rfl⟩ := List.length_eq_one.mp h1
    simp [summarize]
  · simp only [summarize, if_neg hlen]
    have h1 : ((L.length : ℚ) - 1) ≠ 0 := by
      have h2 : 2 ≤ L.length := by omega
      have h2q : (2 : ℚ) ≤ (L.length : ℚ) := by exact_mod_cast h2
      linarith
    rw [div_mul_cancel₀ _ h1]

lemma csize_summarize (Xs : List (List ℚ)) :
    combined_sample_size (Xs.map summarize) = (Xs.flatten.length : ℤ) := by
  induction Xs with
  | nil => simp [combined_sample_size]
  | cons L Xs ih =>
    simp only [combined_sample_size, List.map_cons, List.sum_cons] at ih ⊢
    rw [ih]
    simp only [summarize, List.flatten_cons, List.length_append]
    push_cast
    ring

lemma cmean_num_summarize (Xs : List (List ℚ)) (h : ∀ L ∈ Xs, L ≠ []) :
    ((Xs.map summarize).map fun a => (a.samples : ℚ) * a.quantity).sum
      = Xs.flatten.sum := by
  induction Xs with
  | nil => simp
  | cons L Xs ih =>
    have hL : L ≠ [] := h L (by simp)
    have hrest : ∀ M ∈ Xs, M ≠ [] := fun M hM => h M (by simp [hM])
    have hlen : (L.length : ℚ) ≠ 0 := by
      have := List.length_pos.mpr hL
      exact_mod_cast Nat.pos_iff_ne_zero.mp this
    simp only [List.map_cons, List.sum_cons, List.flatten_cons,
      List.sum_append, ih hrest, summarize]
    push_cast
    field_simp

lemma cvar_num_summarize (Xs : List (List ℚ)) (h : ∀ L ∈ Xs, L ≠ [])
    (u : ℚ) :
    ((Xs.map summarize).map fun a =>
        (a.samples : ℚ) * (a.quantity - u) ^ 2
          + a.variance * ((a.samples : ℚ) - 1)).sum
      = (Xs.flatten.map fun x => (x - u) ^ 2).sum := by
  induction Xs with
  | nil => simp
  | cons L Xs ih =>
    have hL : L ≠ [] := h L (by simp)
    have hrest : ∀ M ∈ Xs, M ≠ [] := fun M hM => h M (by simp [hM])
    simp only [List.map_cons, List.sum_cons, List.flatten_cons,
      List.map_append, List.sum_append, ih hrest]
    congr 1
    have hcast : (((summarize L).samples : ℤ) : ℚ) = (L.length : ℚ) := by
      simp [summarize]
    rw [hcast, show (summarize L).quantity = L.sum / (L.length : ℚ) from rfl,
      summarize_var_mul L hL, sq_dev_mean L hL u]
    ring

/-- Claim C1 (equivalence law): partitioning a sequence into non-empty
groups (total length ≥ 2), summarizing each group as
`(arithmetic_mean, sample_variance, len)` — a length-1 group carrying
variance `0` — and combining the summaries reproduces the mean and the
sample standard deviation of the whole sequence exactly; the last two
conjuncts tie the `summarize` record to the base-layer functions. -/
theorem c1_partition_equivalence (Xs : List (List ℚ)) (s : ℚ → ℚ)
    (hne : ∀ L ∈ Xs, L ≠ []) (hlen : 2 ≤ Xs.flatten.length) :
    combined_arithmetic_mean (Xs.map summarize) none
        = arithmetic_mean Xs.flatten
    ∧ combined_sample_standard_deviation s (Xs.map summarize) none none none
        = sample_standard_deviation s Xs.flatten none none
    ∧ (∀ L ∈ Xs, arithmetic_mean L = Except.ok (summarize L).quantity)
    ∧ (∀ L ∈ Xs, 2 ≤ L.length →
        sample_variance L none = Except.ok (summarize L).variance) := by
  have hflat_ne : Xs.flatten ≠ [] := by
    intro h0
    rw [h0] at hlen
    simp at hlen
  have hszZ : combined_sample_size (Xs.map summarize)
      = (Xs.flatten.length : ℤ) := csize_summarize Xs
  have hsz0 : combined_sample_size (Xs.map summarize) ≠ 0 := by
    rw [hszZ]
    omega
  have hsz1 : combined_sample_size (Xs.map summarize) ≠ 1 := by
    rw [hszZ]
    omega
  have hcastQ : ((combined_sample_size (Xs.map summarize) : ℤ) : ℚ)
      = (Xs.flatten.length : ℚ) := by
    rw [hszZ]
    push_cast
    rfl
  refine ⟨?_, ?_, ?_, ?_⟩
  · rw [cmean_none_ok _ hsz0, cmean_num_summarize Xs hne, hcastQ,
      mean_ok _ hflat_ne]
  · simp only [combined_sample_standard_deviation, Option.getD_none]
    rw [cmean_some_ok _ _ hsz0, cmean_num_summarize Xs hne, hcastQ]
    simp only [Except.bind]
    rw [cvar_uu_ok _ _ _ hsz1, cvar_num_summarize Xs hne, hcastQ]
    simp only [sample_standard_deviation]
    rw [mean_ok _ hflat_ne]
    simp only [Except.bind]
    rw [variance_some_ok _ _ (by omega)]
  · intro L hL
    exact mean_ok L (hne L hL)
  · intro L hL h2
    rw [variance_none_ok L h2]
    simp only [summarize, if_neg (show ¬(L.length ≤ 1) by omega)]

/-- Witness for C1 on the partition `[[1], [2, 4]]` of `[1, 2, 4]`. -/
theorem c1_partition_equivalence_witness :
    combined_arithmetic_mean ([[1], [2, 4]].map summarize) none
        = arithmetic_mean ([[1], [2, 4]] : List (List ℚ)).flatten
    ∧ combined_sample_standard_deviation id ([[1], [2, 4]].map summarize)
        none none none
        = sample_standard_deviation id
            ([[1], [2, 4]] : List (List ℚ)).flatten none none
    ∧ (∀ L ∈ ([[1], [2, 4]] : List (List ℚ)),
        arithmetic_mean L = Except.ok (summarize L).quantity)
    ∧ (∀ L ∈ ([[1], [2, 4]] : List (List ℚ)), 2 ≤ L.length →
        sample_variance L none = Except.ok (summarize L).variance) :=
  c1_partition_equivalence [[1], [2, 4]] id (by decide) (by decide)
